import Mathlib

/-!
Shallow embedding of the kport release tooling: `release.py` (release
orchestration) and `deb_publish.py` (Debian packaging helper).

Strings are modelled as lists of characters (`Str`).  Python regular
expressions used by the scripts are fixed patterns without interesting
backtracking, so each one is compiled by hand into a deterministic scanner;
only the ASCII fragment of Python's whitespace and word-character classes is
modelled, which covers every input the scripts produce or consume.
External subprocesses are opaque: they are modelled by their observable
results (exit code, stdout, stderr, or absence of the command).
-/

abbrev Str := List Char

/-- ASCII fragment of Python's `str.strip` whitespace set and regex class `\s`. -/
def pyIsSpace (c : Char) : Bool :=
  c == ' ' || c == '\t' || c == '\n' || c == '\r' || c == '\x0b' || c == '\x0c'

/-- Python `str.strip()`: remove leading and trailing whitespace. -/
def pyStrip (s : Str) : Str :=
  ((s.dropWhile pyIsSpace).reverse.dropWhile pyIsSpace).reverse

/-- Lower-case every character (for `re.IGNORECASE` matching). -/
def lowerStr (s : Str) : Str := s.map Char.toLower

/-- Case-sensitive literal matching: `dropLit lit s` returns the rest of `s`
after `lit` when `s` starts with `lit`, and `none` otherwise. -/
def dropLit : Str → Str → Option Str
  | [], s => some s
  | _ :: _, [] => none
  | l :: ls, c :: cs => if c == l then dropLit ls cs else none

/-- Case-insensitive literal matching (regex with `re.IGNORECASE`). -/
def dropLitCI : Str → Str → Option Str
  | [], s => some s
  | _ :: _, [] => none
  | l :: ls, c :: cs => if c.toLower == l.toLower then dropLitCI ls cs else none

/-- The regex class `["\']` used by the version patterns. -/
def isQuote (c : Char) : Bool := c == '"' || c == '\''

/-- ASCII fragment of the regex class `\w` (for the `\b` word boundary). -/
def isWordChar (c : Char) : Bool := c.isAlphanum || c == '_'

/-!
### VersionResolver

`release.py / read_version_from_setup` searches `setup.py` text with
`version\s*=\s*["\']([^"\']+)["\']` and returns `m.group(1).strip()`;
`deb_publish.py / read_project_version` uses the same pattern with a leading
`\b` word boundary.  For this pattern greedy matching never backtracks
(each quantified class is disjoint from what follows), so the scanner below
is an exact compilation of the regex.
-/

/-- Consume one expected character. -/
def expectChar (a : Char) : Str → Option Str
  | [] => none
  | c :: cs => if c == a then some cs else none

/-- Attempt the pattern `version\s*=\s*["\']([^"\']+)["\']` at the start of
`s`; return the captured group. -/
def matchVersionAt (s : Str) : Option Str :=
  (dropLit ("version".toList) s).bind fun s1 =>
  (expectChar '=' (List.dropWhile pyIsSpace s1)).bind fun s2 =>
  match List.dropWhile pyIsSpace s2 with
  | [] => none
  | c :: s3 =>
    if isQuote c then
      let cap := s3.takeWhile (fun x => !(isQuote x))
      match s3.dropWhile (fun x => !(isQuote x)) with
      | [] => none
      | _ :: _ => if cap.isEmpty then none else some cap
    else none

/-- Search as `re.search` for the version pattern: leftmost match wins. -/
def reSearchVersion : Str → Option Str
  | [] => none
  | c :: rest =>
    match matchVersionAt (c :: rest) with
    | some cap => some cap
    | none => reSearchVersion rest

/-- The `\b` word boundary holds before a word character at the current
position, given the previous character (`none` at the start of the text). -/
def boundaryOk : Option Char → Bool
  | none => true
  | some p => !(isWordChar p)

/-- Search as `re.search` for the version pattern with a leading `\b` word boundary
(`deb_publish.py`); `prev` is the character before the current position. -/
def reSearchVersionB (prev : Option Char) : Str → Option Str
  | [] => none
  | c :: rest =>
    match (if boundaryOk prev then matchVersionAt (c :: rest) else none) with
    | some cap => some cap
    | none => reSearchVersionB (some c) rest

/-- Function `release.py / read_version_from_setup`: `none` models a missing
`setup.py`; otherwise search the text and strip the captured group. -/
def read_version_from_setup (setupText : Option Str) : Option Str :=
  match setupText with
  | none => none
  | some t => (reSearchVersion t).map pyStrip

/-- Function `deb_publish.py / read_project_version`: same as above but the pattern
carries a leading `\b`. -/
def read_project_version (setupText : Option Str) : Option Str :=
  match setupText with
  | none => none
  | some t => (reSearchVersionB none t).map pyStrip

/-!
### Debhelper compat level (`deb_publish.py / _debhelper_compat_level`)

The function runs `dh --version` and searches its output with
`debhelper\s+version\s+(\d+)` (case-insensitive); on any failure it
returns 12, otherwise `max(12, major)`.
-/

/-- Observable result of the `dh --version` query. -/
inductive DhQuery
  /-- The `dh` helper is not on PATH (`command_exists` fails). -/
  | absent
  /-- The `subprocess.check_output` call raised. -/
  | failed
  /-- combined stdout+stderr text of the helper. -/
  | output (s : Str)

/-- Python `int()` on a non-empty digit string. -/
def digitsToNat (ds : Str) : Nat :=
  ds.foldl (fun n c => 10 * n + (c.toNat - '0'.toNat)) 0

/-- Attempt `debhelper\s+version\s+(\d+)` (IGNORECASE) at the start of `s`,
returning the captured integer. -/
def matchDhVersionAt (s : Str) : Option Nat :=
  (dropLitCI ("debhelper".toList) s).bind fun s1 =>
  match s1 with
  | [] => none
  | c :: _ =>
    if pyIsSpace c then
      (dropLitCI ("version".toList) (List.dropWhile pyIsSpace s1)).bind fun s3 =>
      match s3 with
      | [] => none
      | d :: _ =>
        if pyIsSpace d then
          let digs := (List.dropWhile pyIsSpace s3).takeWhile Char.isDigit
          if digs.isEmpty then none else some (digitsToNat digs)
        else none
    else none

/-- Search as `re.search` for the debhelper version pattern: leftmost match wins. -/
def reSearchDhVersion : Str → Option Nat
  | [] => none
  | c :: rest =>
    match matchDhVersionAt (c :: rest) with
    | some n => some n
    | none => reSearchDhVersion rest

/-- Function `deb_publish.py / _debhelper_compat_level`. -/
def debhelper_compat_level (q : DhQuery) : Nat :=
  match q with
  | .absent => 12
  | .failed => 12
  | .output s =>
    match reSearchDhVersion s with
    | none => 12
    | some major => max 12 major

/-!
### Control file rendering (`deb_publish.py / generate_debian_skeleton`)

Only the `debian/control` text matters for the claims; it is rendered from
the maintainer identity and the compat level, with the Build-Depends floor
written as `min(compat, 12)` exactly as in the source.
-/

/-- The `debian/control` text rendered by `generate_debian_skeleton`. -/
def controlText (maintName maintEmail : String) (compat : Nat) : String :=
  "Source: kport\n" ++
  "Section: utils\n" ++
  "Priority: optional\n" ++
  "Maintainer: " ++ maintName ++ " <" ++ maintEmail ++ ">\n" ++
  "Build-Depends: debhelper (>= " ++ toString (min compat 12) ++ ")\n" ++
  "Standards-Version: 4.5.0\n" ++
  "Homepage: https://github.com/farman20ali/port-killer\n" ++
  "Rules-Requires-Root: no\n" ++
  "\n" ++
  "Package: kport\n" ++
  "Architecture: all\n" ++
  "Depends: $\x7bmisc:Depends\x7d, python3, python3-psutil\n" ++
  "Description: Cross-platform port inspector and killer\n" ++
  " kport helps you list, inspect, and kill processes using ports.\n" ++
  " It can also show Docker port mappings when Docker is installed.\n"

/-!
### Unmet build dependency parsing (`deb_publish.py`)

`_parse_unmet_build_deps` searches with
`Unmet build dependencies:\s*(.*)$` (IGNORECASE | MULTILINE).  Since
`(.*)$` succeeds at every position, the greedy `\s*` always consumes the
maximal whitespace run (newlines included) and the capture is the rest of
the line it lands on.
-/

/-- A completed subprocess, as observed through `subprocess.run` with
captured output. -/
structure Completed where
  returncode : Int
  stdout : Str
  stderr : Str

/-- The marker the parser searches for. -/
def unmetMarker : Str := "Unmet build dependencies:".toList

/-- Find the first case-insensitive occurrence of the marker; return the
text following it. -/
def findMarkerRest : Str → Option Str
  | [] => none
  | c :: rest =>
    match dropLitCI unmetMarker (c :: rest) with
    | some r => some r
    | none => findMarkerRest rest

/-- The regex class `[a-z0-9+.-]` with IGNORECASE. -/
def isDepNameChar (c : Char) : Bool :=
  c.isAlphanum || c == '+' || c == '.' || c == '-'

/-- Function `deb_publish.py / _parse_unmet_build_deps`. -/
def _parse_unmet_build_deps (output : Str) : List Str :=
  match findMarkerRest output with
  | none => []
  | some rest =>
    let deps := (List.dropWhile pyIsSpace rest).takeWhile (fun c => c ≠ '\n')
    let parts := ((deps.splitOn ',').map pyStrip).filter (fun p => !p.isEmpty)
    (parts.map (fun p => p.takeWhile isDepNameChar)).filter (fun n => !n.isEmpty)

/-- stdout and stderr concatenation `(proc.stdout or "") + "\n" + (proc.stderr or "")`. -/
def combinedOutput (p : Completed) : Str := p.stdout ++ '\n' :: p.stderr

/-- Function `deb_publish.py / check_debian_build_deps`: `none` models
`dpkg-checkbuilddeps` missing from PATH. -/
def check_debian_build_deps (helper : Option Completed) : List Str :=
  match helper with
  | none => []
  | some proc =>
    if proc.returncode = 0 then []
    else _parse_unmet_build_deps (combinedOutput proc)

/-- Spec-side notion used by C6: the marker occurs nowhere in the text,
case-insensitively. -/
def MarkerFree (s : Str) : Prop :=
  ∀ i, dropLitCI unmetMarker (s.drop i) = none

/-!
### New artifact detection (`deb_publish.py / _copy_new_debs`)

`before` is the snapshot of `.deb` filenames in the build parent directory
taken before `dpkg-buildpackage` ran; `afterNames` is the listing taken
after.  The copied (reported-new) files are those whose name is not in the
snapshot.
-/

/-- Filenames `_copy_new_debs` classifies as new and copies into `dist/deb/`. -/
def _copy_new_debs_names (afterNames before : List Str) : List Str :=
  afterNames.filter (fun n => !(before.contains n))

/-!
### Repository state queries (`release.py`)

`check_git_status` and `check_tag_exists` run git with captured output and
return a boolean computed from stdout; a missing git binary makes
`subprocess.run` raise, which neither function catches.
-/

/-- Result of a repository query as seen by the caller: either the
subprocess could not be started and an exception propagates, or a boolean
is returned. -/
inductive RepoQueryOutcome
  | raised
  | value (b : Bool)
deriving DecidableEq

/-- Function `release.py / check_git_status` applied to the observable result of
`git status --porcelain` (`none` models git missing from PATH). -/
def check_git_status (git : Option Completed) : RepoQueryOutcome :=
  match git with
  | none => .raised
  | some p => .value (pyStrip p.stdout).isEmpty

/-- Function `release.py / check_tag_exists` applied to the observable result of
`git tag -l <tag>`. -/
def check_tag_exists (git : Option Completed) : RepoQueryOutcome :=
  match git with
  | none => .raised
  | some p => .value (!(pyStrip p.stdout).isEmpty)

/-!
### Release orchestrator (`release.py / main`)

The run is modelled as a function from the parsed arguments and an
environment (the observable behaviour of every external collaborator) to
the list of subprocess invocations performed and the final outcome.  The
environment fixes git as runnable (its two read-only queries complete);
the failure modes of the queries themselves are settled separately through
`check_git_status` / `check_tag_exists` above.
-/

/-- Parsed command line of `release.py`. -/
structure Args where
  version : Option Str
  no_pypi : Bool
  no_deb : Bool
  no_github : Bool
  dry_run : Bool

/-- Observable behaviour of the external world during one release run. -/
structure Env where
  /-- Content of `setup.py`, or `none` when the file is missing. -/
  setup_text : Option Str
  /-- stdout of `git status --porcelain`. -/
  git_status_stdout : Str
  /-- stdout of `git tag -l <tag>`, per queried tag. -/
  git_tag_stdout : Str → Str
  /-- the operator answers y/yes at the confirmation prompt. -/
  confirm_yes : Bool
  /-- exit code of `git tag -a ...`. -/
  tag_rc : Nat
  /-- exit code of `git push origin main`. -/
  push_commits_rc : Nat
  /-- exit code of `git push origin --tags`. -/
  push_tags_rc : Nat
  /-- Whether `python3` is on PATH. -/
  python3_exists : Bool
  /-- Whether `publish.py` exists next to the script. -/
  publish_script_exists : Bool
  /-- exit code of `python3 publish.py` (pypi build). -/
  pypi_rc : Nat
  /-- a `.whl` file is present in `dist/` after the pypi build. -/
  dist_whl_present : Bool
  /-- Whether `deb_publish.py` exists next to the script. -/
  deb_script_exists : Bool
  /-- exit code of `python3 deb_publish.py` (deb build). -/
  deb_rc : Nat
  /-- a `.deb` file is present in `dist/deb/` after the deb build. -/
  deb_file_present : Bool
  /-- the `gh` CLI is on PATH. -/
  gh_exists : Bool
  /-- exit code of `gh release create ...`. -/
  gh_rc : Nat

/-- A subprocess invocation performed by the orchestrator. -/
inductive Effect
  | gitStatusQuery
  | gitTagQuery (tag : Str)
  | gitCreateTag (tag : Str)
  | gitPushCommits
  | gitPushTags
  | runPypiBuild
  | runDebBuild
  | ghCreateRelease (tag : Str)
deriving DecidableEq

/-- Whether an invocation mutates external state (everything except the two
read-only git queries). -/
def Effect.isMutating : Effect → Bool
  | .gitStatusQuery => false
  | .gitTagQuery _ => false
  | _ => true

/-- Stages of the release pipeline, following the spec's state machine. -/
inductive RState
  | ResolvingVersion
  | ValidatingState
  | AwaitingConfirmation
  | Tagging
  | BuildingPackages
  | CollectingNotes
  | PublishingRelease
  | Summarizing
deriving DecidableEq

/-- Final outcome of a run: `sys.exit` at some stage, or the summary is
reached carrying the per-kind build results. -/
inductive Outcome
  | aborted (stage : RState) (code : Nat)
  | summarized (pypi_success deb_success : Bool)
deriving DecidableEq

/-- A whole run: the invocations performed, in order, and the outcome. -/
structure RunResult where
  effects : List Effect
  outcome : Outcome

/-- Function `release.py / build_pypi_packages`: success flag and invocations. -/
def build_pypi_packages (dry_run : Bool) (e : Env) : Bool × List Effect :=
  if dry_run then (true, [])
  else if !e.python3_exists then (false, [])
  else if !e.publish_script_exists then (false, [])
  else if e.pypi_rc ≠ 0 then (false, [.runPypiBuild])
  else if !e.dist_whl_present then (false, [.runPypiBuild])
  else (true, [.runPypiBuild])

/-- Function `release.py / build_debian_package`: success flag and invocations. -/
def build_debian_package (dry_run : Bool) (e : Env) : Bool × List Effect :=
  if dry_run then (true, [])
  else if !e.deb_script_exists then (false, [])
  else if e.deb_rc ≠ 0 then (false, [.runDebBuild])
  else if !e.deb_file_present then (false, [.runDebBuild])
  else (true, [.runDebBuild])

/-- Function `release.py / create_github_release`: success flag and invocations.
Note the `gh` existence check precedes the dry-run check, as in the source. -/
def create_github_release (tag : Str) (dry_run : Bool) (e : Env) : Bool × List Effect :=
  if !e.gh_exists then (false, [])
  else if dry_run then (true, [])
  else if e.gh_rc ≠ 0 then (false, [.ghCreateRelease tag])
  else (true, [.ghCreateRelease tag])

/-- Version resolution at the top of `main`: `read_version_from_setup()`
must be truthy, then `version = args.version or current_version`
(Python truthiness: `none` and the empty string are falsy). -/
def resolveVersion (args : Args) (e : Env) : Option Str :=
  match read_version_from_setup e.setup_text with
  | none => none
  | some cv =>
    if cv.isEmpty then none
    else some (match args.version with
      | none => cv
      | some av => if av.isEmpty then cv else av)

/-- Steps of `main` from package building onwards (step 5 to the summary). -/
def release_tail (args : Args) (e : Env) (tag : Str) (pre : List Effect) : RunResult :=
  let pypi := if args.no_pypi then (true, ([] : List Effect))
              else build_pypi_packages args.dry_run e
  let deb := if args.no_deb then (true, ([] : List Effect))
             else build_debian_package args.dry_run e
  let gh := if args.no_github then (true, ([] : List Effect))
            else create_github_release tag args.dry_run e
  ⟨pre ++ pypi.2 ++ deb.2 ++ gh.2, .summarized pypi.1 deb.1⟩

/-- Function `release.py / main` as a function of arguments and environment. -/
def release_main (args : Args) (e : Env) : RunResult :=
  match resolveVersion args e with
  | none => ⟨[], .aborted .ResolvingVersion 1⟩
  | some version =>
    let tag := 'v' :: version
    -- Pre-flight checks: check_git_status, then check_tag_exists
    if !(pyStrip e.git_status_stdout).isEmpty then
      ⟨[.gitStatusQuery], .aborted .ValidatingState 1⟩
    else if !(pyStrip (e.git_tag_stdout tag)).isEmpty then
      ⟨[.gitStatusQuery, .gitTagQuery tag], .aborted .ValidatingState 1⟩
    else
      let pre : List Effect := [.gitStatusQuery, .gitTagQuery tag]
      -- Confirmation prompt (skipped in dry-run mode); declining exits 0
      if !args.dry_run && !e.confirm_yes then
        ⟨pre, .aborted .AwaitingConfirmation 0⟩
      else if args.dry_run then
        -- Tagging is only logged in dry-run mode
        release_tail args e tag pre
      else if e.tag_rc ≠ 0 then
        ⟨pre ++ [.gitCreateTag tag], .aborted .Tagging e.tag_rc⟩
      else if e.push_commits_rc ≠ 0 then
        ⟨pre ++ [.gitCreateTag tag, .gitPushCommits], .aborted .Tagging e.push_commits_rc⟩
      else if e.push_tags_rc ≠ 0 then
        ⟨pre ++ [.gitCreateTag tag, .gitPushCommits, .gitPushTags],
          .aborted .Tagging e.push_tags_rc⟩
      else
        release_tail args e tag (pre ++ [.gitCreateTag tag, .gitPushCommits, .gitPushTags])

/-- Spec-side notion used by C4: the text contains an assignment
`version = "X"` / `version = 'X'` somewhere (whitespace around `=`,
either quote on either side, captured value non-empty and quote-free). -/
def VersionAssignment (t : Str) : Prop :=
  ∃ pre ws1 ws2 q X q' post,
    t = pre ++ "version".toList ++ ws1 ++ '=' :: (ws2 ++ q :: (X ++ q' :: post)) ∧
    (∀ c ∈ ws1, pyIsSpace c = true) ∧ (∀ c ∈ ws2, pyIsSpace c = true) ∧
    isQuote q = true ∧ isQuote q' = true ∧ X ≠ [] ∧ (∀ c ∈ X, isQuote c = false)

/-- Spec-side notion used by C5: the helper output contains (case-insensitively)
`debhelper`, whitespace, `version`, whitespace, then at least one digit. -/
def DhVersionOccurs (s : Str) : Prop :=
  ∃ pre d9 ws1 v7 ws2 ds rest,
    s = pre ++ d9 ++ ws1 ++ v7 ++ ws2 ++ ds ++ rest ∧
    lowerStr d9 = "debhelper".toList ∧ lowerStr v7 = "version".toList ∧
    ws1 ≠ [] ∧ (∀ c ∈ ws1, pyIsSpace c = true) ∧
    ws2 ≠ [] ∧ (∀ c ∈ ws2, pyIsSpace c = true) ∧
    ds ≠ [] ∧ (∀ c ∈ ds, c.isDigit = true)

/-!
### Concrete sample runs

Argument vectors and environments used to instantiate the orchestrator
theorems on concrete runs.
-/

/-- A plain full release invocation (no flags). -/
def argsPlain : Args :=
  { version := none, no_pypi := false, no_deb := false,
    no_github := false, dry_run := false }

/-- A dry-run invocation. -/
def argsDry : Args :=
  { argsPlain with dry_run := true }

/-- A healthy environment: version resolvable, clean tree, no tags,
all tools present, every subprocess succeeding. -/
def envBase : Env :=
  { setup_text := some ("version = \"1.2.3\"\n".toList)
    git_status_stdout := []
    git_tag_stdout := fun _ => []
    confirm_yes := true
    tag_rc := 0
    push_commits_rc := 0
    push_tags_rc := 0
    python3_exists := true
    publish_script_exists := true
    pypi_rc := 0
    dist_whl_present := true
    deb_script_exists := true
    deb_rc := 0
    deb_file_present := true
    gh_exists := true
    gh_rc := 0 }

/-- Like `envBase` but the tag listing reports an existing tag. -/
def envTagExists : Env :=
  { envBase with git_tag_stdout := fun _ => "v1.2.3\n".toList }

/-- Like `envBase` but the pypi build subprocess fails. -/
def envPypiFails : Env :=
  { envBase with pypi_rc := 1 }

/-!
## Helper lemmas
-/

theorem dropLit_eq_some_iff (lit : Str) : ∀ s r, dropLit lit s = some r ↔ s = lit ++ r := by
  induction lit with
  | nil => intro s r; simp [dropLit]
  | cons l ls ih =>
    intro s r
    cases s with
    | nil => simp [dropLit]
    | cons c cs =>
      by_cases hc : c = l
      · subst hc; simp [dropLit, ih]
      · simp [dropLit, hc]

theorem dropLitCI_append (lit : Str) : ∀ p rest, lowerStr p = lowerStr lit →
    dropLitCI lit (p ++ rest) = some rest := by
  induction lit with
  | nil =>
    intro p rest h
    have hp : p = [] := by
      cases p with
      | nil => rfl
      | cons a as => simp [lowerStr] at h
    subst hp; simp [dropLitCI]
  | cons l ls ih =>
    intro p rest h
    cases p with
    | nil => simp [lowerStr] at h
    | cons c cs =>
      simp only [lowerStr, List.map_cons, List.cons.injEq] at h
      simpa [dropLitCI, h.1] using ih cs rest (by simpa [lowerStr] using h.2)

theorem dropLitCI_some (lit : Str) : ∀ s r, dropLitCI lit s = some r →
    ∃ p, s = p ++ r ∧ lowerStr p = lowerStr lit := by
  induction lit with
  | nil =>
    intro s r h
    simp only [dropLitCI, Option.some.injEq] at h
    exact ⟨[], by simp [h], by simp [lowerStr]⟩
  | cons l ls ih =>
    intro s r h
    cases s with
    | nil => simp [dropLitCI] at h
    | cons c cs =>
      simp only [dropLitCI] at h
      by_cases hc : c.toLower = l.toLower
      · rw [if_pos (by simp [hc])] at h
        obtain ⟨p, hp, hl⟩ := ih cs r h
        refine ⟨c :: p, by simp [hp], ?_⟩
        simp only [lowerStr, List.map_cons, hc, List.cons.injEq, true_and]
        simpa [lowerStr] using hl
      · rw [if_neg (by simp [hc])] at h
        cases h

theorem dropWhile_all_append (p : Char → Bool) :
    ∀ ws rest, (∀ c ∈ ws, p c = true) →
      List.dropWhile p (ws ++ rest) = List.dropWhile p rest := by
  intro ws
  induction ws with
  | nil => simp
  | cons w ws ih =>
    intro rest h
    have hw : p w = true := h w (List.mem_cons_self _ _)
    rw [List.cons_append, List.dropWhile_cons, if_pos hw]
    exact ih rest fun c hc => h c (List.mem_cons_of_mem _ hc)

theorem dropWhile_cons_false (p : Char → Bool) (c : Char) (l : Str) (h : p c = false) :
    List.dropWhile p (c :: l) = c :: l := by
  rw [List.dropWhile_cons, if_neg (by simp [h])]

theorem takeWhile_all_append (p : Char → Bool) :
    ∀ X q rest, (∀ c ∈ X, p c = true) → p q = false →
      List.takeWhile p (X ++ q :: rest) = X := by
  intro X
  induction X with
  | nil => intro q rest _ hq; simpa [List.takeWhile_cons] using (by simp [hq])
  | cons x xs ih =>
    intro q rest h hq
    have hx : p x = true := h x (List.mem_cons_self _ _)
    rw [List.cons_append, List.takeWhile_cons, if_pos hx]
    rw [ih q rest (fun c hc => h c (List.mem_cons_of_mem _ hc)) hq]

theorem dropWhile_all_append_cons (p : Char → Bool) (X : Str) (q : Char) (rest : Str)
    (h : ∀ c ∈ X, p c = true) (hq : p q = false) :
    List.dropWhile p (X ++ q :: rest) = q :: rest := by
  rw [dropWhile_all_append p X (q :: rest) h, dropWhile_cons_false p q rest hq]

theorem dropWhile_head_false (p : Char → Bool) :
    ∀ l c r, List.dropWhile p l = c :: r → p c = false := by
  intro l
  induction l with
  | nil => intro c r h; simp [List.dropWhile] at h
  | cons a l ih =>
    intro c r h
    rw [List.dropWhile_cons] at h
    by_cases ha : p a = true
    · rw [if_pos ha] at h; exact ih _ _ h
    · rw [if_neg ha] at h
      cases h
      simpa using ha

theorem isQuote_not_space (c : Char) (h : isQuote c = true) : pyIsSpace c = false := by
  have : c = '"' ∨ c = '\'' := by
    simpa [isQuote] using h
  rcases this with h | h <;> subst h <;> decide

theorem isQuote_not_v (c : Char) (h : isQuote c = true) : c ≠ 'v' := by
  have : c = '"' ∨ c = '\'' := by
    simpa [isQuote] using h
  rcases this with h | h <;> subst h <;> decide

theorem expectChar_some_iff (a : Char) (s r : Str) :
    expectChar a s = some r ↔ s = a :: r := by
  cases s with
  | nil => simp [expectChar]
  | cons c cs =>
    by_cases hc : c = a
    · subst hc; simp [expectChar]
    · simp [expectChar, hc, Ne.symm hc]

theorem matchVersionAt_canonical (ws1 ws2 X post : Str) (q q' : Char)
    (hws1 : ∀ c ∈ ws1, pyIsSpace c = true) (hws2 : ∀ c ∈ ws2, pyIsSpace c = true)
    (hq : isQuote q = true) (hq' : isQuote q' = true)
    (hX : X ≠ []) (hXq : ∀ c ∈ X, isQuote c = false) :
    matchVersionAt ("version".toList ++ (ws1 ++ '=' :: (ws2 ++ q :: (X ++ q' :: post))))
      = some X := by
  have h1 : dropLit ("version".toList)
      ("version".toList ++ (ws1 ++ '=' :: (ws2 ++ q :: (X ++ q' :: post))))
      = some (ws1 ++ '=' :: (ws2 ++ q :: (X ++ q' :: post))) :=
    (dropLit_eq_some_iff _ _ _).mpr rfl
  have h2 : List.dropWhile pyIsSpace (ws1 ++ '=' :: (ws2 ++ q :: (X ++ q' :: post)))
      = '=' :: (ws2 ++ q :: (X ++ q' :: post)) :=
    dropWhile_all_append_cons pyIsSpace ws1 '=' _ hws1 (by decide)
  have h3 : List.dropWhile pyIsSpace (ws2 ++ q :: (X ++ q' :: post))
      = q :: (X ++ q' :: post) :=
    dropWhile_all_append_cons pyIsSpace ws2 q _ hws2 (isQuote_not_space q hq)
  have h4 : List.takeWhile (fun x => !(isQuote x)) (X ++ q' :: post) = X :=
    takeWhile_all_append _ X q' post (fun c hc => by simp [hXq c hc]) (by simp [hq'])
  have h5 : List.dropWhile (fun x => !(isQuote x)) (X ++ q' :: post) = q' :: post :=
    dropWhile_all_append_cons _ X q' post (fun c hc => by simp [hXq c hc]) (by simp [hq'])
  have hXe : X.isEmpty = false := by
    cases X with
    | nil => exact absurd rfl hX
    | cons a l => rfl
  rw [matchVersionAt, h1, Option.some_bind, h2,
    (expectChar_some_iff '=' _ _).mpr rfl, Option.some_bind, h3]
  simp only [hq, if_true, h4, h5, hXe]
  rfl

theorem matchVersionAt_some (s cap : Str) (h : matchVersionAt s = some cap) :
    ∃ ws1 ws2 q q' post,
      s = "version".toList ++ (ws1 ++ '=' :: (ws2 ++ q :: (cap ++ q' :: post))) ∧
      (∀ c ∈ ws1, pyIsSpace c = true) ∧ (∀ c ∈ ws2, pyIsSpace c = true) ∧
      isQuote q = true ∧ isQuote q' = true ∧ cap ≠ [] ∧
      (∀ c ∈ cap, isQuote c = false) := by
  rw [matchVersionAt] at h
  cases hd : dropLit ("version".toList) s with
  | none => rw [hd] at h; cases h
  | some s1 =>
    rw [hd, Option.some_bind] at h
    have hs : s = "version".toList ++ s1 := (dropLit_eq_some_iff _ _ _).mp hd
    cases he : expectChar '=' (List.dropWhile pyIsSpace s1) with
    | none => rw [he] at h; cases h
    | some s2 =>
      rw [he, Option.some_bind] at h
      have hs1 : List.dropWhile pyIsSpace s1 = '=' :: s2 :=
        (expectChar_some_iff '=' _ _).mp he
      have hs1d : s1 = List.takeWhile pyIsSpace s1 ++ '=' :: s2 := by
        conv_lhs => rw [← List.takeWhile_append_dropWhile pyIsSpace s1]
        rw [hs1]
      cases h3 : List.dropWhile pyIsSpace s2 with
      | nil => rw [h3] at h; cases h
      | cons c s3 =>
        rw [h3] at h
        have hs2d : s2 = List.takeWhile pyIsSpace s2 ++ c :: s3 := by
          conv_lhs => rw [← List.takeWhile_append_dropWhile pyIsSpace s2]
          rw [h3]
        simp only at h
        by_cases hqc : isQuote c = true
        · rw [if_pos hqc] at h
          cases h5 : List.dropWhile (fun x => !(isQuote x)) s3 with
          | nil => rw [h5] at h; cases h
          | cons q' rest =>
            rw [h5] at h
            simp only at h
            by_cases hce : (List.takeWhile (fun x => !(isQuote x)) s3).isEmpty = true
            · rw [if_pos hce] at h; cases h
            · rw [if_neg hce] at h
              have hcap : List.takeWhile (fun x => !(isQuote x)) s3 = cap :=
                Option.some.inj h
              have hs3d : s3 = cap ++ q' :: rest := by
                conv_lhs => rw [← List.takeWhile_append_dropWhile
                  (fun x => !(isQuote x)) s3]
                rw [h5, hcap]
              refine ⟨List.takeWhile pyIsSpace s1, List.takeWhile pyIsSpace s2,
                c, q', rest, ?_, ?_, ?_, hqc, ?_, ?_, ?_⟩
              · conv_lhs => rw [hs, hs1d, hs2d, hs3d]
              · intro x hx; exact List.mem_takeWhile_imp hx
              · intro x hx; exact List.mem_takeWhile_imp hx
              · have := dropWhile_head_false (fun x => !(isQuote x)) s3 q' rest h5
                simpa using this
              · intro hnil; rw [hcap] at hce; simp [hnil] at hce
              · intro x hx
                rw [← hcap] at hx
                have := List.mem_takeWhile_imp hx
                simpa using this
        · rw [if_neg hqc] at h; cases h

theorem reSearchVersion_some (t cap : Str) (h : reSearchVersion t = some cap) :
    ∃ pre s, t = pre ++ s ∧ matchVersionAt s = some cap := by
  induction t with
  | nil => simp [reSearchVersion] at h
  | cons c rest ih =>
    rw [reSearchVersion] at h
    cases hm : matchVersionAt (c :: rest) with
    | some cap2 =>
      rw [hm] at h
      exact ⟨[], c :: rest, rfl, by rw [hm]; exact h⟩
    | none =>
      rw [hm] at h
      obtain ⟨pre, s, ht, hs⟩ := ih h
      exact ⟨c :: pre, s, by rw [List.cons_append, ht], hs⟩

theorem reSearchVersionB_some (t : Str) : ∀ prev cap,
    reSearchVersionB prev t = some cap →
    ∃ pre s, t = pre ++ s ∧ matchVersionAt s = some cap := by
  induction t with
  | nil => intro prev cap h; simp [reSearchVersionB] at h
  | cons c rest ih =>
    intro prev cap h
    rw [reSearchVersionB] at h
    cases hb : boundaryOk prev with
    | true =>
      rw [hb, if_pos rfl] at h
      cases hm : matchVersionAt (c :: rest) with
      | some cap2 =>
        rw [hm] at h
        exact ⟨[], c :: rest, rfl, by rw [hm]; exact h⟩
      | none =>
        rw [hm] at h
        obtain ⟨pre, s, ht, hs⟩ := ih (some c) cap h
        exact ⟨c :: pre, s, by rw [List.cons_append, ht], hs⟩
    | false =>
      rw [hb, if_neg Bool.false_ne_true] at h
      obtain ⟨pre, s, ht, hs⟩ := ih (some c) cap h
      exact ⟨c :: pre, s, by rw [List.cons_append, ht], hs⟩

theorem matchVersionAt_ne_v (c : Char) (rest : Str) (hc : c ≠ 'v') :
    matchVersionAt (c :: rest) = none := by
  have : dropLit ("version".toList) (c :: rest) = none := by
    show dropLit ('v' :: "ersion".toList) (c :: rest) = none
    simp [dropLit, hc]
  rw [matchVersionAt, this, Option.none_bind]

theorem reSearchVersion_no_v_append (pre rest cap : Str)
    (hpre : ∀ c ∈ pre, c ≠ 'v') (hm : matchVersionAt rest = some cap) :
    reSearchVersion (pre ++ rest) = some cap := by
  induction pre with
  | nil =>
    cases rest with
    | nil => rw [show matchVersionAt [] = none from rfl] at hm; cases hm
    | cons c r => rw [List.nil_append, reSearchVersion, hm]
  | cons p pre ih =>
    have hp : p ≠ 'v' := hpre p (List.mem_cons_self _ _)
    rw [List.cons_append, reSearchVersion,
      matchVersionAt_ne_v p (pre ++ rest) hp]
    exact ih fun c hc => hpre c (List.mem_cons_of_mem _ hc)

theorem reSearchVersionB_start (rest cap : Str)
    (hm : matchVersionAt rest = some cap) :
    reSearchVersionB none rest = some cap := by
  cases rest with
  | nil => rw [show matchVersionAt [] = none from rfl] at hm; cases hm
  | cons c r =>
    have hunf : reSearchVersionB none (c :: r)
        = match matchVersionAt (c :: r) with
          | some cap => some cap
          | none => reSearchVersionB (some c) r := rfl
    rw [hunf, hm]

theorem space_cases (c : Char) (h : pyIsSpace c = true) :
    c = ' ' ∨ c = '\t' ∨ c = '\n' ∨ c = '\r' ∨ c = '\x0b' ∨ c = '\x0c' := by
  simp only [pyIsSpace, Bool.or_eq_true, beq_iff_eq] at h
  tauto

theorem toLower_v_not_space (c : Char) (h : c.toLower = 'v') : pyIsSpace c = false := by
  by_contra hs
  have hs' : pyIsSpace c = true := by simpa using hs
  rcases space_cases c hs' with h1 | h1 | h1 | h1 | h1 | h1 <;> subst h1 <;>
    exact absurd h (by decide)

theorem digit_not_space (c : Char) (h : c.isDigit = true) : pyIsSpace c = false := by
  by_contra hs
  have hs' : pyIsSpace c = true := by simpa using hs
  rcases space_cases c hs' with h1 | h1 | h1 | h1 | h1 | h1 <;> subst h1 <;>
    exact absurd h (by decide)

theorem takeWhile_all (p : Char → Bool) :
    ∀ l, (∀ c ∈ l, p c = true) → List.takeWhile p l = l := by
  intro l
  induction l with
  | nil => simp
  | cons a l ih =>
    intro h
    rw [List.takeWhile_cons, if_pos (h a (List.mem_cons_self _ _))]
    rw [ih fun c hc => h c (List.mem_cons_of_mem _ hc)]

theorem matchDhVersionAt_canonical (d9 ws1 v7 ws2 ds rest : Str)
    (hd9 : lowerStr d9 = "debhelper".toList) (hv7 : lowerStr v7 = "version".toList)
    (hws1ne : ws1 ≠ []) (hws1 : ∀ c ∈ ws1, pyIsSpace c = true)
    (hws2ne : ws2 ≠ []) (hws2 : ∀ c ∈ ws2, pyIsSpace c = true)
    (hds : ds ≠ []) (hdsd : ∀ c ∈ ds, c.isDigit = true)
    (hrest : ∀ c r, rest = c :: r → c.isDigit = false) :
    matchDhVersionAt (d9 ++ (ws1 ++ (v7 ++ (ws2 ++ (ds ++ rest)))))
      = some (digitsToNat ds) := by
  obtain ⟨w1, ws1t, rfl⟩ : ∃ w1 ws1t, ws1 = w1 :: ws1t := by
    cases ws1 with
    | nil => exact absurd rfl hws1ne
    | cons a l => exact ⟨a, l, rfl⟩
  obtain ⟨v, v7t, hv7c⟩ : ∃ v v7t, v7 = v :: v7t := by
    cases v7 with
    | nil => simp [lowerStr] at hv7
    | cons a l => exact ⟨a, l, rfl⟩
  obtain ⟨w2, ws2t, rfl⟩ : ∃ w2 ws2t, ws2 = w2 :: ws2t := by
    cases ws2 with
    | nil => exact absurd rfl hws2ne
    | cons a l => exact ⟨a, l, rfl⟩
  obtain ⟨d0, dst, hdsc⟩ : ∃ d0 dst, ds = d0 :: dst := by
    cases ds with
    | nil => exact absurd rfl hds
    | cons a l => exact ⟨a, l, rfl⟩
  have hvl : v.toLower = 'v' := by
    rw [hv7c] at hv7
    simpa [lowerStr] using congrArg (fun l => l.headI) hv7
  have hvs : pyIsSpace v = false := toLower_v_not_space v hvl
  have hw1 : pyIsSpace w1 = true := hws1 w1 (List.mem_cons_self _ _)
  have hw2 : pyIsSpace w2 = true := hws2 w2 (List.mem_cons_self _ _)
  have hd0 : pyIsSpace d0 = false :=
    digit_not_space d0 (hdsd d0 (hdsc ▸ List.mem_cons_self _ _))
  have h1 : dropLitCI ("debhelper".toList)
      (d9 ++ ((w1 :: ws1t) ++ (v7 ++ ((w2 :: ws2t) ++ (ds ++ rest)))))
      = some ((w1 :: ws1t) ++ (v7 ++ ((w2 :: ws2t) ++ (ds ++ rest)))) :=
    dropLitCI_append _ _ _ hd9
  have h2 : List.dropWhile pyIsSpace
      (w1 :: (ws1t ++ (v7 ++ (w2 :: (ws2t ++ (ds ++ rest))))))
      = v7 ++ (w2 :: (ws2t ++ (ds ++ rest))) := by
    rw [List.dropWhile_cons, if_pos hw1,
      dropWhile_all_append pyIsSpace ws1t _
        (fun c hc => hws1 c (List.mem_cons_of_mem _ hc)),
      hv7c, List.cons_append, dropWhile_cons_false pyIsSpace v _ hvs]
  have h3 : dropLitCI ("version".toList) (v7 ++ (w2 :: (ws2t ++ (ds ++ rest))))
      = some (w2 :: (ws2t ++ (ds ++ rest))) :=
    dropLitCI_append _ _ _ hv7
  have h4 : List.dropWhile pyIsSpace (w2 :: (ws2t ++ (ds ++ rest))) = ds ++ rest := by
    rw [List.dropWhile_cons, if_pos hw2,
      dropWhile_all_append pyIsSpace ws2t _
        (fun c hc => hws2 c (List.mem_cons_of_mem _ hc)),
      hdsc, List.cons_append, dropWhile_cons_false pyIsSpace d0 _ hd0]
  have h5 : List.takeWhile Char.isDigit (ds ++ rest) = ds := by
    cases hr : rest with
    | nil =>
      subst hr
      rw [List.append_nil]
      exact takeWhile_all _ ds hdsd
    | cons c r => exact takeWhile_all_append _ ds c r hdsd (hrest c r hr)
  have hdse : ds.isEmpty = false := by
    rw [hdsc]; rfl
  rw [matchDhVersionAt, h1, Option.some_bind]
  simp only [List.cons_append]
  rw [if_pos hw1, h2, h3, Option.some_bind]
  simp [hw2, h4, h5, hdse]

theorem takeWhile_cons_head (p : Char → Bool) (c : Char) (l : Str) (h : p c = true) :
    List.takeWhile p (c :: l) = c :: List.takeWhile p l := by
  rw [List.takeWhile_cons, if_pos h]

theorem matchDhVersionAt_some (s : Str) (n : Nat) (h : matchDhVersionAt s = some n) :
    ∃ d9 ws1 v7 ws2 ds rest,
      s = d9 ++ (ws1 ++ (v7 ++ (ws2 ++ (ds ++ rest)))) ∧
      lowerStr d9 = "debhelper".toList ∧ lowerStr v7 = "version".toList ∧
      ws1 ≠ [] ∧ (∀ c ∈ ws1, pyIsSpace c = true) ∧
      ws2 ≠ [] ∧ (∀ c ∈ ws2, pyIsSpace c = true) ∧
      ds ≠ [] ∧ (∀ c ∈ ds, c.isDigit = true) := by
  rw [matchDhVersionAt] at h
  cases hd : dropLitCI ("debhelper".toList) s with
  | none => rw [hd] at h; cases h
  | some s1 =>
    rw [hd, Option.some_bind] at h
    obtain ⟨d9, hs, hd9⟩ := dropLitCI_some _ _ _ hd
    have hd9l : lowerStr d9 = "debhelper".toList := by
      rw [hd9]; decide
    cases hs1 : s1 with
    | nil => rw [hs1] at h; cases h
    | cons c s1t =>
      rw [hs1] at h
      simp only at h
      by_cases hc : pyIsSpace c = true
      · rw [if_pos hc] at h
        cases hv : dropLitCI ("version".toList) (List.dropWhile pyIsSpace (c :: s1t)) with
        | none => rw [hv] at h; cases h
        | some s3 =>
          rw [hv, Option.some_bind] at h
          obtain ⟨v7, hs3, hv7⟩ := dropLitCI_some _ _ _ hv
          have hv7l : lowerStr v7 = "version".toList := by
            rw [hv7]; decide
          cases hs3c : s3 with
          | nil => rw [hs3c] at h; cases h
          | cons d s3t =>
            rw [hs3c] at h
            simp only at h
            by_cases hdsp : pyIsSpace d = true
            · rw [if_pos hdsp] at h
              by_cases hde : (List.takeWhile Char.isDigit
                  (List.dropWhile pyIsSpace (d :: s3t))).isEmpty = true
              · rw [if_pos hde] at h; cases h
              · rw [if_neg hde] at h
                refine ⟨d9, List.takeWhile pyIsSpace (c :: s1t), v7,
                  List.takeWhile pyIsSpace (d :: s3t),
                  List.takeWhile Char.isDigit (List.dropWhile pyIsSpace (d :: s3t)),
                  List.dropWhile Char.isDigit (List.dropWhile pyIsSpace (d :: s3t)),
                  ?_, hd9l, hv7l, ?_, ?_, ?_, ?_, ?_, ?_⟩
                · rw [hs, hs1]
                  congr 1
                  conv_lhs => rw [← List.takeWhile_append_dropWhile pyIsSpace (c :: s1t)]
                  congr 1
                  rw [hs3, hs3c]
                  congr 1
                  conv_lhs => rw [← List.takeWhile_append_dropWhile pyIsSpace (d :: s3t)]
                  congr 1
                  conv_lhs => rw [← List.takeWhile_append_dropWhile Char.isDigit
                    (List.dropWhile pyIsSpace (d :: s3t))]
                · rw [takeWhile_cons_head pyIsSpace c s1t hc]
                  exact List.cons_ne_nil _ _
                · intro x hx; exact List.mem_takeWhile_imp hx
                · rw [takeWhile_cons_head pyIsSpace d s3t hdsp]
                  exact List.cons_ne_nil _ _
                · intro x hx; exact List.mem_takeWhile_imp hx
                · intro hnil; rw [hnil] at hde; simp at hde
                · intro x hx; exact List.mem_takeWhile_imp hx
            · rw [if_neg hdsp] at h; cases h
      · rw [if_neg hc] at h
        cases h

theorem reSearchDhVersion_some (t : Str) (n : Nat) (h : reSearchDhVersion t = some n) :
    ∃ pre s, t = pre ++ s ∧ matchDhVersionAt s = some n := by
  induction t with
  | nil => simp [reSearchDhVersion] at h
  | cons c rest ih =>
    rw [reSearchDhVersion] at h
    cases hm : matchDhVersionAt (c :: rest) with
    | some n2 =>
      rw [hm] at h
      exact ⟨[], c :: rest, rfl, by rw [hm]; exact h⟩
    | none =>
      rw [hm] at h
      obtain ⟨pre, s, ht, hs⟩ := ih h
      exact ⟨c :: pre, s, by rw [List.cons_append, ht], hs⟩

theorem matchDhVersionAt_ne_d (c : Char) (rest : Str) (hc : c.toLower ≠ 'd') :
    matchDhVersionAt (c :: rest) = none := by
  have hstep : dropLitCI ("debhelper".toList) (c :: rest) = none := by
    show dropLitCI ('d' :: "ebhelper".toList) (c :: rest) = none
    simp [dropLitCI, hc]
  rw [matchDhVersionAt, hstep, Option.none_bind]

theorem reSearchDhVersion_no_d_append (pre rest : Str) (n : Nat)
    (hpre : ∀ c ∈ pre, c.toLower ≠ 'd') (hm : matchDhVersionAt rest = some n) :
    reSearchDhVersion (pre ++ rest) = some n := by
  induction pre with
  | nil =>
    cases rest with
    | nil => rw [show matchDhVersionAt [] = none from rfl] at hm; cases hm
    | cons c r => rw [List.nil_append, reSearchDhVersion, hm]
  | cons p pre ih =>
    have hp : p.toLower ≠ 'd' := hpre p (List.mem_cons_self _ _)
    rw [List.cons_append, reSearchDhVersion,
      matchDhVersionAt_ne_d p (pre ++ rest) hp]
    exact ih fun c hc => hpre c (List.mem_cons_of_mem _ hc)

theorem findMarkerRest_none_iff (s : Str) :
    findMarkerRest s = none ↔ MarkerFree s := by
  induction s with
  | nil =>
    constructor
    · intro _ i
      rw [List.drop_nil]
      rfl
    · intro _; rfl
  | cons c rest ih =>
    constructor
    · intro h i
      rw [findMarkerRest] at h
      cases hm : dropLitCI unmetMarker (c :: rest) with
      | some r => rw [hm] at h; cases h
      | none =>
        rw [hm] at h
        cases i with
        | zero => simpa using hm
        | succ j => simpa using ih.mp h j
    · intro h
      rw [findMarkerRest]
      have h0 := h 0
      rw [List.drop_zero] at h0
      rw [h0]
      exact ih.mpr fun j => by simpa using h (j + 1)

/-!
## Claim theorems
-/

/-- C8: for every pre-build snapshot of artifact filenames and every
post-build listing, the set of artifacts `_copy_new_debs` reports (and
copies to `dist/deb/`) as new contains no filename present in the snapshot
taken before the build ran. -/
theorem C8_new_artifacts_not_in_snapshot (afterNames before : List Str) :
    ∀ n ∈ _copy_new_debs_names afterNames before, n ∉ before := by
  intro n hn
  have hfilt := List.of_mem_filter hn
  simpa using hfilt

/-- Witness for C8 on a concrete directory diff. -/
theorem C8_witness :
    "b.deb".toList ∈ _copy_new_debs_names ["a.deb".toList, "b.deb".toList] ["a.deb".toList]
    ∧ "b.deb".toList ∉ ["a.deb".toList] :=
  ⟨by decide,
   C8_new_artifacts_not_in_snapshot ["a.deb".toList, "b.deb".toList] ["a.deb".toList]
     ("b.deb".toList) (by decide)⟩

/-- C10: the compat level is `max 12 major`, the control file embeds
`min(compat, 12)`, so the rendered Build-Depends floor is the constant 12
and the control text never varies with the installed helper version. -/
theorem C10_build_depends_floor_constant (q : DhQuery) (name email : String) :
    min (debhelper_compat_level q) 12 = 12 ∧
    controlText name email (debhelper_compat_level q) = controlText name email 12 := by
  have h12 : 12 ≤ debhelper_compat_level q := by
    cases q with
    | absent => exact le_refl 12
    | failed => exact le_refl 12
    | output s =>
      cases hr : reSearchDhVersion s with
      | none => simp [debhelper_compat_level, hr]
      | some major =>
        simp only [debhelper_compat_level, hr]
        exact le_max_left _ _
  refine ⟨min_eq_right h12, ?_⟩
  rw [controlText, controlText, min_eq_right h12, Nat.min_self]

/-- C2 counterexample: a git subprocess that itself failed (exit 128,
empty stdout) is reported to the caller as the ordinary boolean result
`true` ("clean") / `false` ("tag absent"), not as an error. -/
theorem C2_counterexample :
    check_git_status (some ⟨128, [], "fatal: not a git repository".toList⟩)
      = .value true
    ∧ check_tag_exists (some ⟨128, [], "fatal: not a git repository".toList⟩)
      = .value false
    ∧ (128 : Int) ≠ 0 := by
  refine ⟨by decide, by decide, by decide⟩

/-- C2 (amended): a missing git binary makes the query raise (the
`subprocess.run` exception propagates uncaught), but a completed git
subprocess is never checked for its exit code: both queries return the
boolean computed from stdout alone. -/
theorem C2_amended_repo_queries (p : Completed) :
    check_git_status none = .raised ∧
    check_tag_exists none = .raised ∧
    check_git_status (some p) = .value (pyStrip p.stdout).isEmpty ∧
    check_tag_exists (some p) = .value (!(pyStrip p.stdout).isEmpty) :=
  ⟨rfl, rfl, rfl, rfl⟩

/-- C6: the build-dependency check returns `[]` when the helper is
unavailable; when the helper exits zero (whatever its stdout); and when it
exits non-zero but the combined stdout+stderr contains no occurrence of the
marker `Unmet build dependencies:` (case-insensitively).  In every other
case the result is obtained by running the extractor on stdout+stderr. -/
theorem C6_build_dep_check_empty_cases (h : Option Completed) :
    (h = none → check_debian_build_deps h = []) ∧
    (∀ p, h = some p → p.returncode = 0 → check_debian_build_deps h = []) ∧
    (∀ p, h = some p → p.returncode ≠ 0 → MarkerFree (combinedOutput p) →
      check_debian_build_deps h = []) ∧
    (∀ p, h = some p → p.returncode ≠ 0 →
      check_debian_build_deps h = _parse_unmet_build_deps (combinedOutput p)) := by
  refine ⟨?_, ?_, ?_, ?_⟩
  · intro he; rw [he]; rfl
  · intro p he hrc
    rw [he]
    simp only [check_debian_build_deps]
    rw [if_pos hrc]
  · intro p he hrc hmf
    rw [he]
    simp only [check_debian_build_deps]
    rw [if_neg hrc]
    simp only [_parse_unmet_build_deps]
    rw [(findMarkerRest_none_iff _).mpr hmf]
  · intro p he hrc
    rw [he]
    simp only [check_debian_build_deps]
    rw [if_neg hrc]

/-- Witness for C6: a zero exit with marker text in stdout still yields
`[]`, and a non-zero exit without the marker yields `[]`. -/
theorem C6_witness :
    check_debian_build_deps
      (some ⟨0, "Unmet build dependencies: foo".toList, []⟩) = [] ∧
    check_debian_build_deps
      (some ⟨1, "dpkg-checkbuilddeps: some other failure".toList, "boom".toList⟩) = [] :=
  ⟨(C6_build_dep_check_empty_cases _).2.1 _ rfl (by decide),
   (C6_build_dep_check_empty_cases _).2.2.1 _ rfl (by decide)
     ((findMarkerRest_none_iff _).mp (by decide))⟩

/-- C7 counterexample: the marker line `Unmet build dependencies:` has an
empty remainder (the very next character is a newline), so under the claim
the parser should return `[]`; the code's `\s*` crosses the newline and it
returns `["foo"]` parsed from the following line. -/
theorem C7_counterexample :
    findMarkerRest ("dpkg-checkbuilddeps:\nUnmet build dependencies:\nfoo (= 1)".toList)
      = some ('\n' :: "foo (= 1)".toList)
    ∧ _parse_unmet_build_deps
        ("dpkg-checkbuilddeps:\nUnmet build dependencies:\nfoo (= 1)".toList)
      = ["foo".toList] := by
  refine ⟨by decide, by decide⟩

/-- C7 (amended): after the marker the parser first skips any whitespace,
newlines included, then takes the rest of that line, splits it on commas,
and returns in order the leading identifier (over letters, digits, plus, dot, dash) of
each token, silently dropping tokens without one; on the claim's example
input it returns exactly `["debhelper-compat", "foo"]`. -/
theorem C7_parse_unmet_deps :
    _parse_unmet_build_deps
      ("dpkg-checkbuilddeps: error: Unmet build dependencies: debhelper-compat (= 13), foo".toList)
      = ["debhelper-compat".toList, "foo".toList]
    ∧ (∀ s x, x ∈ _parse_unmet_build_deps s →
        x ≠ [] ∧ ∀ c ∈ x, isDepNameChar c = true)
    ∧ _parse_unmet_build_deps ("Unmet build dependencies: ***, foo (>= 1.2)".toList)
      = ["foo".toList]
    ∧ _parse_unmet_build_deps ("Unmet build dependencies: \n  bar (= 2), baz!x".toList)
      = ["bar".toList, "baz".toList] := by
  refine ⟨by decide, ?_, by decide, by decide⟩
  intro s x hx
  simp only [_parse_unmet_build_deps] at hx
  cases hm : findMarkerRest s with
  | none => rw [hm] at hx; cases hx
  | some rest =>
    rw [hm] at hx
    simp only at hx
    have hx' := List.of_mem_filter hx
    have hmem := List.mem_of_mem_filter hx
    obtain ⟨p, hp, rfl⟩ := List.mem_map.mp hmem
    constructor
    · intro hnil
      rw [hnil] at hx'
      simp at hx'
    · intro c hc
      exact List.mem_takeWhile_imp hc

/-- Witness for C7 on a concrete extracted name. -/
theorem C7_witness :
    "foo".toList ≠ [] ∧ ∀ c ∈ "foo".toList, isDepNameChar c = true :=
  C7_parse_unmet_deps.2.1 ("Unmet build dependencies: foo".toList) ("foo".toList)
    (by decide)

/-- C5: the compat level is always at least 12; it is exactly 12 when the
helper is absent, when its invocation fails, and when its output contains
no debhelper-version phrase; and on a well-formed report it equals the
maximum of 12 and the leading integer of the reported version. -/
theorem C5_compat_level :
    (∀ q, 12 ≤ debhelper_compat_level q) ∧
    debhelper_compat_level .absent = 12 ∧
    debhelper_compat_level .failed = 12 ∧
    (∀ s, ¬ DhVersionOccurs s → debhelper_compat_level (.output s) = 12) ∧
    (∀ pre d9 ws1 v7 ws2 ds rest,
      (∀ c ∈ pre, c.toLower ≠ 'd') →
      lowerStr d9 = "debhelper".toList → lowerStr v7 = "version".toList →
      ws1 ≠ [] → (∀ c ∈ ws1, pyIsSpace c = true) →
      ws2 ≠ [] → (∀ c ∈ ws2, pyIsSpace c = true) →
      ds ≠ [] → (∀ c ∈ ds, c.isDigit = true) →
      (∀ c ∈ rest.take 1, c.isDigit = false) →
      debhelper_compat_level
        (.output (pre ++ (d9 ++ (ws1 ++ (v7 ++ (ws2 ++ (ds ++ rest)))))))
        = max 12 (digitsToNat ds)) := by
  refine ⟨?_, rfl, rfl, ?_, ?_⟩
  · intro q
    cases q with
    | absent => exact le_refl 12
    | failed => exact le_refl 12
    | output s =>
      cases hr : reSearchDhVersion s with
      | none => simp [debhelper_compat_level, hr]
      | some major =>
        simp only [debhelper_compat_level, hr]
        exact le_max_left _ _
  · intro s hocc
    cases hr : reSearchDhVersion s with
    | none => simp [debhelper_compat_level, hr]
    | some n =>
      exfalso
      obtain ⟨pre, sfx, ht, hm⟩ := reSearchDhVersion_some s n hr
      obtain ⟨d9, ws1, v7, ws2, ds, rest, hdec, hd9, hv7, hw1ne, hw1, hw2ne, hw2,
        hdsne, hdsd⟩ := matchDhVersionAt_some sfx n hm
      exact hocc ⟨pre, d9, ws1, v7, ws2, ds, rest,
        by rw [ht, hdec]; simp [List.append_assoc],
        hd9, hv7, hw1ne, hw1, hw2ne, hw2, hdsne, hdsd⟩
  · intro pre d9 ws1 v7 ws2 ds rest hpre hd9 hv7 hw1ne hw1 hw2ne hw2 hdsne hdsd hrest
    have hrest' : ∀ c r, rest = c :: r → c.isDigit = false := by
      intro c r hr
      apply hrest
      rw [hr]
      simp
    have hm := matchDhVersionAt_canonical d9 ws1 v7 ws2 ds rest
      hd9 hv7 hw1ne hw1 hw2ne hw2 hdsne hdsd hrest'
    have hs := reSearchDhVersion_no_d_append pre _ _ hpre hm
    simp [debhelper_compat_level, hs]

/-- Witness for C5 on a realistic helper report. -/
theorem C5_witness :
    debhelper_compat_level
      (.output ("this is ".toList ++ ("debhelper".toList ++ (" ".toList ++
        ("version".toList ++ (" ".toList ++ ("13".toList ++ ".6ubuntu1".toList)))))))
      = max 12 (digitsToNat ("13".toList)) :=
  C5_compat_level.2.2.2.2 ("this is ".toList) ("debhelper".toList) (" ".toList)
    ("version".toList) (" ".toList) ("13".toList) (".6ubuntu1".toList)
    (by decide) (by decide) (by decide) (by decide) (by decide)
    (by decide) (by decide) (by decide) (by decide) (by decide)

/-- C4: a missing metadata file resolves to `none`; a text carrying a
`version = "X"` / `version = 'X'` assignment (any whitespace around `=`,
either quote style, any literal captured value — no semantic-version
validation) resolves to exactly `X` stripped of surrounding whitespace,
for both resolvers; and a text with no such assignment resolves to `none`
for both resolvers, never raising. -/
theorem C4_version_resolver :
    (read_version_from_setup none = none ∧ read_project_version none = none) ∧
    (∀ pre ws1 ws2 X post q q',
      (∀ c ∈ pre, c ≠ 'v') →
      (∀ c ∈ ws1, pyIsSpace c = true) → (∀ c ∈ ws2, pyIsSpace c = true) →
      isQuote q = true → isQuote q' = true →
      X ≠ [] → (∀ c ∈ X, isQuote c = false) →
      read_version_from_setup
        (some (pre ++ ("version".toList ++ (ws1 ++ '=' :: (ws2 ++ q :: (X ++ q' :: post))))))
        = some (pyStrip X)) ∧
    (∀ ws1 ws2 X post q q',
      (∀ c ∈ ws1, pyIsSpace c = true) → (∀ c ∈ ws2, pyIsSpace c = true) →
      isQuote q = true → isQuote q' = true →
      X ≠ [] → (∀ c ∈ X, isQuote c = false) →
      read_project_version
        (some ("version".toList ++ (ws1 ++ '=' :: (ws2 ++ q :: (X ++ q' :: post)))))
        = some (pyStrip X)) ∧
    (∀ t, ¬ VersionAssignment t →
      read_version_from_setup (some t) = none ∧
      read_project_version (some t) = none) := by
  refine ⟨⟨rfl, rfl⟩, ?_, ?_, ?_⟩
  · intro pre ws1 ws2 X post q q' hpre hws1 hws2 hq hq' hX hXq
    have hm := matchVersionAt_canonical ws1 ws2 X post q q' hws1 hws2 hq hq' hX hXq
    have hs := reSearchVersion_no_v_append pre _ X hpre hm
    simp only [read_version_from_setup]
    rw [hs]
    rfl
  · intro ws1 ws2 X post q q' hws1 hws2 hq hq' hX hXq
    have hm := matchVersionAt_canonical ws1 ws2 X post q q' hws1 hws2 hq hq' hX hXq
    have hs := reSearchVersionB_start _ X hm
    simp only [read_project_version]
    rw [hs]
    rfl
  · intro t hva
    constructor
    · cases hr : reSearchVersion t with
      | none => simp only [read_version_from_setup]; rw [hr]; rfl
      | some cap =>
        exfalso
        obtain ⟨pre, sfx, ht, hm⟩ := reSearchVersion_some t cap hr
        obtain ⟨ws1, ws2, q, q', post, hdec, hws1, hws2, hq, hq', hne, hnq⟩ :=
          matchVersionAt_some sfx cap hm
        exact hva ⟨pre, ws1, ws2, q, cap, q', post,
          by rw [ht, hdec]; simp [List.append_assoc],
          hws1, hws2, hq, hq', hne, hnq⟩
    · cases hr : reSearchVersionB none t with
      | none => simp only [read_project_version]; rw [hr]; rfl
      | some cap =>
        exfalso
        obtain ⟨pre, sfx, ht, hm⟩ := reSearchVersionB_some t none cap hr
        obtain ⟨ws1, ws2, q, q', post, hdec, hws1, hws2, hq, hq', hne, hnq⟩ :=
          matchVersionAt_some sfx cap hm
        exact hva ⟨pre, ws1, ws2, q, cap, q', post,
          by rw [ht, hdec]; simp [List.append_assoc],
          hws1, hws2, hq, hq', hne, hnq⟩

/-- Witness for C4: an unvalidated value with surrounding whitespace is
captured and stripped. -/
theorem C4_witness :
    read_version_from_setup
      (some ("x = 1\n".toList ++ ("version".toList ++ (" ".toList ++ '=' ::
        (" ".toList ++ '"' :: (" 3.1.2 ".toList ++ '"' :: "\n".toList))))))
      = some (pyStrip (" 3.1.2 ".toList)) :=
  C4_version_resolver.2.1 ("x = 1\n".toList) (" ".toList) (" ".toList)
    (" 3.1.2 ".toList) ("\n".toList) '"' '"'
    (by decide) (by decide) (by decide) (by decide) (by decide) (by decide) (by decide)

theorem build_debian_package_effects_run (e : Env) (h : e.deb_script_exists = true) :
    (build_debian_package false e).2 = [.runDebBuild] := by
  by_cases hrc : e.deb_rc = 0 <;> by_cases hf : e.deb_file_present = true <;>
    simp [build_debian_package, h, hrc, hf]

theorem create_github_release_effects_run (tag : Str) (e : Env) (h : e.gh_exists = true) :
    (create_github_release tag false e).2 = [.ghCreateRelease tag] := by
  by_cases hrc : e.gh_rc = 0 <;> simp [create_github_release, h, hrc]

theorem release_main_run (args : Args) (e : Env) (v : Str)
    (hres : resolveVersion args e = some v)
    (hcl : (pyStrip e.git_status_stdout).isEmpty = true)
    (htag : (pyStrip (e.git_tag_stdout ('v' :: v))).isEmpty = true)
    (hdry : args.dry_run = false) (hconf : e.confirm_yes = true)
    (h1 : e.tag_rc = 0) (h2 : e.push_commits_rc = 0) (h3 : e.push_tags_rc = 0) :
    release_main args e = release_tail args e ('v' :: v)
      [.gitStatusQuery, .gitTagQuery ('v' :: v), .gitCreateTag ('v' :: v),
        .gitPushCommits, .gitPushTags] := by
  simp [release_main, hres, hcl, htag, hdry, hconf, h1, h2, h3]

theorem release_main_dry (args : Args) (e : Env) (v : Str)
    (hres : resolveVersion args e = some v)
    (hcl : (pyStrip e.git_status_stdout).isEmpty = true)
    (htag : (pyStrip (e.git_tag_stdout ('v' :: v))).isEmpty = true)
    (hdry : args.dry_run = true) :
    release_main args e = release_tail args e ('v' :: v)
      [.gitStatusQuery, .gitTagQuery ('v' :: v)] := by
  simp [release_main, hres, hcl, htag, hdry]

/-- C1: whenever the tag `v` + resolved version is already listed by the
repository, the run aborts during state validation with exit code 1 and
performs no mutating invocation — no tagging, build, or publish; and every
completed non-dry run creates and pushes exactly that tag, so a re-run
after a full success finds the tag listed and is blocked by the same
validation (first conjunct, applied to the later repository state). -/
theorem C1_existing_tag_blocks_release :
    (∀ args e v, resolveVersion args e = some v →
      (pyStrip (e.git_tag_stdout ('v' :: v))).isEmpty = false →
      (release_main args e).outcome = .aborted .ValidatingState 1 ∧
      ∀ ef ∈ (release_main args e).effects, ef.isMutating = false) ∧
    (∀ args e v p d, args.dry_run = false → resolveVersion args e = some v →
      (release_main args e).outcome = .summarized p d →
      Effect.gitCreateTag ('v' :: v) ∈ (release_main args e).effects ∧
      Effect.gitPushTags ∈ (release_main args e).effects) := by
  constructor
  · intro args e v hres htag
    by_cases hcl : (pyStrip e.git_status_stdout).isEmpty = true
    · have hrm : release_main args e =
          ⟨[.gitStatusQuery, .gitTagQuery ('v' :: v)], .aborted .ValidatingState 1⟩ := by
        simp [release_main, hres, hcl, htag]
      rw [hrm]
      refine ⟨rfl, ?_⟩
      intro ef hef
      simp at hef
      rcases hef with rfl | rfl <;> rfl
    · have hcl' : (pyStrip e.git_status_stdout).isEmpty = false := by
        simpa using hcl
      have hrm : release_main args e =
          ⟨[.gitStatusQuery], .aborted .ValidatingState 1⟩ := by
        simp [release_main, hres, hcl']
      rw [hrm]
      refine ⟨rfl, ?_⟩
      intro ef hef
      simp at hef
      subst hef
      rfl
  · intro args e v p d hdry hres hsum
    by_cases hcl : (pyStrip e.git_status_stdout).isEmpty = true
    case neg =>
      exfalso
      have hcl' : (pyStrip e.git_status_stdout).isEmpty = false := by
        simpa using hcl
      have hrm : release_main args e =
          ⟨[.gitStatusQuery], .aborted .ValidatingState 1⟩ := by
        simp [release_main, hres, hcl']
      rw [hrm] at hsum
      simp at hsum
    by_cases htag : (pyStrip (e.git_tag_stdout ('v' :: v))).isEmpty = true
    case neg =>
      exfalso
      have htag' : (pyStrip (e.git_tag_stdout ('v' :: v))).isEmpty = false := by
        simpa using htag
      have hrm : release_main args e =
          ⟨[.gitStatusQuery, .gitTagQuery ('v' :: v)], .aborted .ValidatingState 1⟩ := by
        simp [release_main, hres, hcl, htag']
      rw [hrm] at hsum
      simp at hsum
    by_cases hconf : e.confirm_yes = true
    case neg =>
      exfalso
      have hconf' : e.confirm_yes = false := by
        simpa using hconf
      have hrm : release_main args e =
          ⟨[.gitStatusQuery, .gitTagQuery ('v' :: v)],
            .aborted .AwaitingConfirmation 0⟩ := by
        simp [release_main, hres, hcl, htag, hdry, hconf']
      rw [hrm] at hsum
      simp at hsum
    by_cases h1 : e.tag_rc = 0
    case neg =>
      exfalso
      have hrm : release_main args e =
          ⟨[.gitStatusQuery, .gitTagQuery ('v' :: v), .gitCreateTag ('v' :: v)],
            .aborted .Tagging e.tag_rc⟩ := by
        simp [release_main, hres, hcl, htag, hdry, hconf, h1]
      rw [hrm] at hsum
      simp at hsum
    by_cases h2 : e.push_commits_rc = 0
    case neg =>
      exfalso
      have hrm : release_main args e =
          ⟨[.gitStatusQuery, .gitTagQuery ('v' :: v), .gitCreateTag ('v' :: v),
              .gitPushCommits],
            .aborted .Tagging e.push_commits_rc⟩ := by
        simp [release_main, hres, hcl, htag, hdry, hconf, h1, h2]
      rw [hrm] at hsum
      simp at hsum
    by_cases h3 : e.push_tags_rc = 0
    case neg =>
      exfalso
      have hrm : release_main args e =
          ⟨[.gitStatusQuery, .gitTagQuery ('v' :: v), .gitCreateTag ('v' :: v),
              .gitPushCommits, .gitPushTags],
            .aborted .Tagging e.push_tags_rc⟩ := by
        simp [release_main, hres, hcl, htag, hdry, hconf, h1, h2, h3]
      rw [hrm] at hsum
      simp at hsum
    have hrm := release_main_run args e v hres hcl htag hdry hconf h1 h2 h3
    rw [hrm]
    constructor <;> simp [release_tail]

/-- Witness for C1 on a repository that already lists the tag. -/
theorem C1_witness :
    (release_main argsPlain envTagExists).outcome = .aborted .ValidatingState 1 ∧
    ∀ ef ∈ (release_main argsPlain envTagExists).effects, ef.isMutating = false :=
  C1_existing_tag_blocks_release.1 argsPlain envTagExists ("1.2.3".toList)
    (by decide) (by decide)

/-- C3: a dry run whose read-only preconditions pass performs only the two
read-only git queries — zero state-mutating subprocess invocations (no tag
creation, push, package build, upload, or remote release) — and still
reaches the summarizing step. -/
theorem C3_dry_run_reaches_summary (args : Args) (e : Env) (v : Str)
    (hdry : args.dry_run = true) (hres : resolveVersion args e = some v)
    (hcl : (pyStrip e.git_status_stdout).isEmpty = true)
    (htag : (pyStrip (e.git_tag_stdout ('v' :: v))).isEmpty = true) :
    (∀ ef ∈ (release_main args e).effects, ef.isMutating = false) ∧
    (release_main args e).outcome = .summarized true true := by
  have hrm := release_main_dry args e v hres hcl htag hdry
  rw [hrm]
  constructor
  · intro ef hef
    cases hnp : args.no_pypi <;> cases hnd : args.no_deb <;>
      cases hng : args.no_github <;> cases hgh : e.gh_exists <;>
      (simp [release_tail, hnp, hnd, hng, hdry, hgh, build_pypi_packages,
        build_debian_package, create_github_release] at hef;
       rcases hef with rfl | rfl <;> rfl)
  · cases hnp : args.no_pypi <;> cases hnd : args.no_deb <;>
      cases hng : args.no_github <;> cases hgh : e.gh_exists <;>
      simp [release_tail, hnp, hnd, hng, hdry, hgh, build_pypi_packages,
        build_debian_package, create_github_release]

/-- Witness for C3 on a healthy dry run. -/
theorem C3_witness :
    (∀ ef ∈ (release_main argsDry envBase).effects, ef.isMutating = false) ∧
    (release_main argsDry envBase).outcome = .summarized true true :=
  C3_dry_run_reaches_summary argsDry envBase ("1.2.3".toList) rfl (by decide)
    (by decide) (by decide)

/-- C9: with both package kinds requested and the pipeline past tagging, a
failure of either kind's build does not stop the run: the summary is still
reached recording the per-kind results, the deb build subprocess is still
invoked (when its script exists), and the remote-release step is still
attempted (when enabled and the CLI exists). -/
theorem C9_build_failure_isolation (args : Args) (e : Env) (v : Str)
    (hnp : args.no_pypi = false) (hnd : args.no_deb = false)
    (hdry : args.dry_run = false) (hres : resolveVersion args e = some v)
    (hcl : (pyStrip e.git_status_stdout).isEmpty = true)
    (htag : (pyStrip (e.git_tag_stdout ('v' :: v))).isEmpty = true)
    (hconf : e.confirm_yes = true)
    (h1 : e.tag_rc = 0) (h2 : e.push_commits_rc = 0) (h3 : e.push_tags_rc = 0)
    (hfail : (build_pypi_packages false e).1 = false ∨
      (build_debian_package false e).1 = false) :
    (release_main args e).outcome
      = .summarized (build_pypi_packages false e).1 (build_debian_package false e).1 ∧
    (e.deb_script_exists = true →
      Effect.runDebBuild ∈ (release_main args e).effects) ∧
    (args.no_github = false → e.gh_exists = true →
      Effect.ghCreateRelease ('v' :: v) ∈ (release_main args e).effects) := by
  have hrm := release_main_run args e v hres hcl htag hdry hconf h1 h2 h3
  rw [hrm]
  refine ⟨?_, ?_, ?_⟩
  · simp [release_tail, hnp, hnd, hdry]
  · intro hds
    have hd := build_debian_package_effects_run e hds
    simp [release_tail, hnp, hnd, hdry, hd]
  · intro hng hgh
    have hg := create_github_release_effects_run ('v' :: v) e hgh
    simp [release_tail, hng, hdry, hg]

/-- Witness for C9: the pypi build fails, yet the deb build and the remote
release are still invoked and the summary records the failure. -/
theorem C9_witness :
    (release_main argsPlain envPypiFails).outcome = .summarized false true ∧
    Effect.runDebBuild ∈ (release_main argsPlain envPypiFails).effects ∧
    Effect.ghCreateRelease ('v' :: "1.2.3".toList)
      ∈ (release_main argsPlain envPypiFails).effects := by
  have h := C9_build_failure_isolation argsPlain envPypiFails ("1.2.3".toList) rfl rfl rfl
    (by decide) (by decide) (by decide) rfl rfl rfl rfl (Or.inl (by decide))
  refine ⟨?_, h.2.1 rfl, h.2.2 rfl rfl⟩
  rw [h.1]
  decide
